import Mathlib

/-!
Verification of the BeyondTyping voice-assistant command pipeline.

This file shallowly embeds the string-processing and dispatch logic of
`src/main.py`, `src/core/command_processor.py` and
`src/core/file_operations.py` and proves / refutes the specification
claims about them.  Python strings are modelled as `List Char` (with
`String` wrappers), Python's `str.replace`, `str.strip`, `str.split`,
`' '.join`, `in`, `startswith`, `endswith` are implemented below with
the same semantics, and the regular-expression table of
`CommandProcessor` is embedded with a Brzozowski-derivative matcher.
External collaborators (filesystem, browser, speaker, listener) are
modelled as explicit parameters.
-/

set_option maxRecDepth 4096

namespace BeyondTyping

/-! ## Basic string utilities (Python `str` semantics on `List Char`) -/

/-- Python whitespace characters (used by `str.strip`/`str.split`). -/
def isSpaceB (c : Char) : Bool :=
  c == ' ' || c == '\t' || c == '\n' || c == '\r' || c == '\x0b' || c == '\x0c'

/-- `leadsWith p s` : does `s` start with `p`?  (Python `s.startswith(p)`). -/
def leadsWith : List Char → List Char → Bool
  | [], _ => true
  | _ :: _, [] => false
  | c :: p, d :: s => c == d && leadsWith p s

/-- `trailsWith p s` : does `s` end with `p`?  (Python `s.endswith(p)`). -/
def trailsWith (p s : List Char) : Bool :=
  leadsWith p.reverse s.reverse

/-- `subOcc p s` : does `p` occur as a contiguous substring of `s`?
(Python `p in s`). -/
def subOcc (p : List Char) : List Char → Bool
  | [] => leadsWith p []
  | c :: t => leadsWith p (c :: t) || subOcc p t

/-- Fueled worker for `replaceAllL`; the fuel is an upper bound on the
length of the remaining text, so the recursion is structural. -/
def replaceGo (p r : List Char) : Nat → List Char → List Char
  | _, [] => []
  | 0, s => s
  | Nat.succ n, c :: t =>
    if !p.isEmpty && leadsWith p (c :: t) then
      r ++ replaceGo p r n (List.drop (p.length - 1) t)
    else
      c :: replaceGo p r n t

/-- Python `s.replace(p, r)` : replace every (non-overlapping, leftmost
first) occurrence of `p` in `s` by `r`. -/
def replaceAllL (p r s : List Char) : List Char :=
  replaceGo p r s.length s

/-- Python `s.replace(p, r, 1)` : replace only the first occurrence. -/
def replaceFirstL (p r : List Char) : List Char → List Char
  | [] => []
  | c :: t =>
    if !p.isEmpty && leadsWith p (c :: t) then
      r ++ List.drop (p.length - 1) t
    else
      c :: replaceFirstL p r t

/-- Python `s.strip()` : drop leading and trailing whitespace. -/
def stripL (s : List Char) : List Char :=
  (((s.dropWhile isSpaceB).reverse).dropWhile isSpaceB).reverse

/-- Worker for Python `s.split()` : split on whitespace runs, dropping
empty words; `acc` holds the reversed current word. -/
def splitWsGo : List Char → List Char → List (List Char)
  | acc, [] => if acc.isEmpty then [] else [acc.reverse]
  | acc, c :: t =>
    if isSpaceB c then
      if acc.isEmpty then splitWsGo [] t else acc.reverse :: splitWsGo [] t
    else
      splitWsGo (c :: acc) t

/-- Python `s.split()` (no separator argument). -/
def splitWsL (s : List Char) : List (List Char) :=
  splitWsGo [] s

/-- Python `' '.join(ws)`. -/
def joinWords : List (List Char) → List Char
  | [] => []
  | [w] => w
  | w :: w' :: ws => w ++ ' ' :: joinWords (w' :: ws)

/-- Python `' '.join(s.split())` : collapse whitespace runs to single
spaces and trim the ends. -/
def collapseL (s : List Char) : List Char :=
  joinWords (splitWsL s)

/-- Python `s.lower()` (ASCII case folding as used by the assistant). -/
def lowerL (s : List Char) : List Char :=
  s.map Char.toLower

/-! ### `String` wrappers -/

def lowerStr (s : String) : String := String.mk (lowerL s.data)

def stripS (s : String) : String := String.mk (stripL s.data)

def collapseS (s : String) : String := String.mk (collapseL s.data)

/-- Python `needle in hay` on `String`. -/
def containsS (hay needle : String) : Bool := subOcc needle.data hay.data

/-- Python `s.replace(p, r)` on `String`. -/
def replaceS (s p r : String) : String :=
  String.mk (replaceAllL p.data r.data s.data)

theorem stringMk_data (s : String) : String.mk s.data = s := rfl

/-! ## Regular expressions (`re.search`) for `CommandProcessor`

A small regex calculus covering the constructs used by the pattern
table of `src/core/command_processor.py` (literals, `\s`, `\w`, `.`,
`(?:...)`, `|`, `*`, `+`, `?`; capture groups only influence the
extracted slots, not whether a match exists, so they are transparent
here).  Matching is by Brzozowski derivatives; `re.search` success is
embedded as: some contiguous slice of the text matches. -/

inductive RE where
  | eps : RE
  | nul : RE
  | cls : (Char → Bool) → RE
  | cat : RE → RE → RE
  | alt : RE → RE → RE
  | star : RE → RE

def RE.nullable : RE → Bool
  | .eps => true
  | .nul => false
  | .cls _ => false
  | .cat a b => a.nullable && b.nullable
  | .alt a b => a.nullable || b.nullable
  | .star _ => true

def RE.deriv : RE → Char → RE
  | .eps, _ => .nul
  | .nul, _ => .nul
  | .cls p, c => if p c then .eps else .nul
  | .cat a b, c =>
    if a.nullable then .alt (.cat (a.deriv c) b) (b.deriv c)
    else .cat (a.deriv c) b
  | .alt a b, c => .alt (a.deriv c) (b.deriv c)
  | .star a, c => .cat (a.deriv c) (.star a)

/-- Does `r` match the whole of `s`? -/
def RE.matchFull (r : RE) (s : List Char) : Bool :=
  (s.foldl RE.deriv r).nullable

/-- Matches any single character (`.` with `re.DOTALL`-irrelevant input). -/
def anyC : RE := .cls fun _ => true

/-- `re.search(r, s)` succeeded: some contiguous slice of `s` matches `r`. -/
def reSearchL (r : RE) (s : List Char) : Bool :=
  RE.matchFull (.cat (.star anyC) (.cat r (.star anyC))) s

/-! Combinators used to transcribe the Python patterns. -/

def rePlus (r : RE) : RE := .cat r (.star r)

def reOpt (r : RE) : RE := .alt r .eps

/-- `\s+` -/
def wsP : RE := rePlus (.cls isSpaceB)

/-- `\s*` -/
def wsS : RE := .star (.cls isSpaceB)

/-- Python `\w` (word character). -/
def isWordC (c : Char) : Bool := c.isAlphanum || c == '_'

/-- A literal string. -/
def lit (s : String) : RE :=
  s.data.foldr (fun c r => .cat (.cls fun d => d == c) r) .eps

/-- Sequencing of a list of regexes. -/
def seqs (rs : List RE) : RE := rs.foldr .cat .eps

/-- `(.+?)` — lazy capture; for match existence it is just `.+`. -/
def dotPlus : RE := rePlus anyC

/-- The ordered pattern table of `CommandProcessor.__init__`
(`self.commands`), flattened later in iteration order.  Each entry is
(command type tag, ordered pattern list), one pattern per Python raw
string, transcribed construct by construct. -/
def commandTable : List (String × List RE) := [
  ("open_folder", [
    seqs [lit "open", wsP, reOpt (seqs [lit "the", wsP]), dotPlus, wsP, lit "folder"],
    seqs [lit "navigate", wsP, lit "to", wsP, reOpt (seqs [lit "the", wsP]), dotPlus],
    seqs [lit "go", wsP, lit "to", wsP, reOpt (seqs [lit "the", wsP]), dotPlus]]),
  ("open_file", [
    seqs [lit "open", wsP, reOpt (seqs [lit "the", wsP]), lit "file", wsP, dotPlus],
    seqs [lit "open", wsP, dotPlus, .cls (fun d => d == '.'), rePlus (.cls isWordC)]]),
  ("create_file", [
    seqs [lit "create", wsP, reOpt (seqs [lit "a", wsP]), reOpt (seqs [lit "new", wsP]),
      lit "file", wsP, reOpt (seqs [lit "called", wsP]), dotPlus],
    seqs [lit "new", wsP, lit "file", wsP, dotPlus]]),
  ("read_file", [
    seqs [lit "read", wsP, reOpt (seqs [lit "the", wsP]), reOpt (seqs [lit "current", wsP]),
      .alt (lit "document") (lit "file"), wsP, dotPlus],
    seqs [lit "read", wsP, dotPlus, .cls (fun d => d == '.'), rePlus (.cls isWordC)]]),
  ("read_current", [
    seqs [lit "read", wsP, reOpt (seqs [lit "the", wsP]), lit "current", wsP,
      .alt (lit "document") (lit "file")],
    seqs [lit "read", wsP, reOpt (seqs [lit "this", wsP]), .alt (lit "document") (lit "file")]]),
  ("save_file", [
    seqs [lit "save", wsP, reOpt (seqs [lit "the", wsP]), reOpt (seqs [lit "current", wsP]),
      .alt (lit "document") (lit "file"), wsP, lit "as", wsP, dotPlus],
    seqs [lit "save", wsP, lit "as", wsP, dotPlus]]),
  ("read_screen", [
    seqs [lit "read", wsP, reOpt (seqs [lit "the", wsP]), lit "screen"],
    seqs [lit "read", wsP, .alt (lit "what") (lit "is"), wsP, .alt (lit "on") (lit "in"), wsP,
      reOpt (seqs [lit "the", wsP]), lit "screen"],
    seqs [lit "what", wsP, lit "does", wsP, reOpt (seqs [lit "the", wsP]), lit "screen", wsP,
      lit "say"]]),
  ("list_directory", [
    seqs [lit "list", wsP, reOpt (seqs [lit "the", wsP]),
      reOpt (.alt (lit "contents") (.alt (lit "files") (lit "items"))), wsS,
      reOpt (seqs [lit "of", wsP]), reOpt dotPlus],
    seqs [lit "show", wsP, reOpt (seqs [lit "me", wsP]), reOpt (seqs [lit "the", wsP]),
      reOpt (.alt (lit "files") (lit "contents")), wsS, reOpt (seqs [lit "in", wsP]),
      reOpt dotPlus],
    seqs [lit "what", wsP, .alt (lit "files") (lit "items"), wsP,
      reOpt (seqs [lit "are", wsP]), reOpt (.alt (lit "in") (seqs [lit "in", wsP, lit "the"])),
      wsS, reOpt dotPlus]]),
  ("create_folder", [
    seqs [lit "create", wsP, reOpt (seqs [lit "a", wsP]), reOpt (seqs [lit "new", wsP]),
      lit "folder", wsP, reOpt (seqs [lit "called", wsP]), dotPlus],
    seqs [lit "new", wsP, lit "folder", wsP, dotPlus]])]

/-- The pattern table flattened in iteration order: intents in table
(declaration) order, patterns in list order within each intent. -/
def flatRules : List (String × RE) :=
  commandTable.flatMap fun g => g.2.map fun r => (g.1, r)

/-! ## `CommandProcessor.process_command` -/

/-- An apostrophe, kept out of string literals. -/
def apos : String := String.mk [Char.ofNat 39]

/-- Response for falsy (empty) input. -/
def noCommandMsg : String := "No command received"

/-- Response when no pattern matches. -/
def didntUnderstandMsg : String :=
  "I didn" ++ apos ++ "t understand that command. Please try again."

/-- The matching loop of `process_command`: try each (command type,
pattern) pair in declaration order; on the first successful search,
execute that command type (execution of the matched command —
`_execute_command` and the handlers behind it — is the collaborator
`exec`). -/
def runRules (exec : String → List Char → Bool × String) (s : List Char) :
    List (String × RE) → Bool × String
  | [] => (false, didntUnderstandMsg)
  | (tag, r) :: rest =>
    if reSearchL r s then exec tag s else runRules exec s rest

/-- Instrumentation: the patterns on which `re.search` is invoked by
`runRules` (every pattern up to and including the first success). -/
def triedRules (s : List Char) : List (String × RE) → List RE
  | [] => []
  | (_, r) :: rest =>
    if reSearchL r s then [r] else r :: triedRules s rest

/-- `CommandProcessor.process_command`: falsy input short-circuits;
otherwise the text is lowercased, stripped and run against the table. -/
def cpProcessCommand (exec : String → List Char → Bool × String)
    (cmd : String) : Bool × String :=
  if cmd = "" then (false, noCommandMsg)
  else runRules exec (stripL (lowerL cmd.data)) flatRules

/-- Instrumentation for `cpProcessCommand`: patterns evaluated. -/
def cpTried (cmd : String) : List RE :=
  if cmd = "" then [] else triedRules (stripL (lowerL cmd.data)) flatRules

/-- Default rule used with `List.getD` when indexing the table. -/
def ruleDefault : String × RE := ("", RE.nul)

/-- First-match-wins for an arbitrary rule list: if the rule at index
`i` matches and all earlier rules fail, the loop executes that rule's
command type and evaluates exactly the first `i+1` patterns. -/
theorem runRules_first_match (exec : String → List Char → Bool × String)
    (s : List Char) :
    ∀ (L : List (String × RE)) (i : Nat), i < L.length →
      reSearchL (L.getD i ruleDefault).2 s = true →
      (∀ j, j < i → reSearchL (L.getD j ruleDefault).2 s = false) →
      runRules exec s L = exec (L.getD i ruleDefault).1 s ∧
      triedRules s L = (L.take (i + 1)).map Prod.snd := by
  intro L
  induction L with
  | nil => intro i hi; simp at hi
  | cons hd rest ih =>
    intro i hi hmatch hprev
    obtain ⟨tag, r⟩ := hd
    cases i with
    | zero =>
      simp only [List.getD_cons_zero] at hmatch ⊢
      simp [runRules, triedRules, hmatch]
    | succ i =>
      have hhd : reSearchL r s = false := by
        have := hprev 0 (Nat.succ_pos i)
        simpa using this
      simp only [List.getD_cons_succ] at hmatch ⊢
      have hrest := ih i (by simpa using hi) hmatch
        (fun j hj => by simpa using hprev (j + 1) (by omega))
      simp [runRules, triedRules, hhd, hrest.1, hrest.2, List.take_succ_cons]

/-- If every rule in the list fails to match, the loop returns the
generic failure and evaluates every pattern. -/
theorem runRules_all_fail (exec : String → List Char → Bool × String)
    (s : List Char) :
    ∀ L : List (String × RE), (∀ g ∈ L, reSearchL g.2 s = false) →
      runRules exec s L = (false, didntUnderstandMsg) ∧
      triedRules s L = L.map Prod.snd := by
  intro L
  induction L with
  | nil => intro _; exact ⟨rfl, rfl⟩
  | cons hd rest ih =>
    intro h
    obtain ⟨tag, r⟩ := hd
    have hhd : reSearchL r s = false := h (tag, r) (List.mem_cons_self _ _)
    have hrest := ih fun g hg => h g (List.mem_cons_of_mem _ hg)
    simp [runRules, triedRules, hhd, hrest.1, hrest.2]

/-- C1: for every normalized utterance `s`, if the pattern at flattened
declaration-order index `i` of the static matcher's table is the first
whose search succeeds on `s`, then the matching loop executes exactly
that pattern's command type (intent), and only the patterns up to and
including index `i` are ever evaluated — no later-declared pattern is
touched, even if it would also match. -/
theorem static_matcher_first_match_wins
    (exec : String → List Char → Bool × String) (s : List Char) (i : Nat)
    (hi : i < flatRules.length)
    (hmatch : reSearchL (flatRules.getD i ruleDefault).2 s = true)
    (hprev : ∀ j, j < i → reSearchL (flatRules.getD j ruleDefault).2 s = false) :
    runRules exec s flatRules = exec (flatRules.getD i ruleDefault).1 s ∧
    triedRules s flatRules = (flatRules.take (i + 1)).map Prod.snd :=
  runRules_first_match exec s flatRules i hi hmatch hprev

/-- C1 witness: on "go to documents" the two patterns declared before
the `go to` pattern of `open_folder` fail, the third matches, the
matcher resolves `open_folder`, and exactly three patterns are tried. -/
theorem static_matcher_first_match_wins_witness :
    runRules (fun tag _ => (true, tag)) "go to documents".data flatRules
      = (true, "open_folder") ∧
    triedRules "go to documents".data flatRules
      = (flatRules.take 3).map Prod.snd := by
  have h := static_matcher_first_match_wins (fun tag _ => (true, tag))
    "go to documents".data 2 (by decide) (by decide)
    (fun j hj => by interval_cases j <;> decide)
  exact ⟨h.1, h.2⟩

/-- C8 counterexample: on the whitespace-only input "   " (empty after
trimming) `process_command` does NOT short-circuit with the no-command
response: the falsy test `if not command_text` only catches the empty
string, so all 21 patterns are evaluated against the stripped text and
the generic didn't-understand response is returned. -/
theorem empty_input_whitespace_counterexample :
    cpProcessCommand (fun t _ => (true, t)) "   "
      = (false, didntUnderstandMsg) ∧
    stripL (lowerL "   ".data) = [] ∧
    (cpTried "   ").length = 21 ∧
    didntUnderstandMsg ≠ noCommandMsg := by
  refine ⟨?_, by decide, ?_, by decide⟩
  · have hne : ("   " : String) ≠ "" := by decide
    have hall : ∀ g ∈ flatRules, reSearchL g.2 [] = false := by decide
    have h := runRules_all_fail (fun t _ => (true, t)) [] flatRules hall
    unfold cpProcessCommand
    rw [if_neg hne, show stripL (lowerL "   ".data) = [] from by decide, h.1]
  · have hne : ("   " : String) ≠ "" := by decide
    have hall : ∀ g ∈ flatRules, reSearchL g.2 [] = false := by decide
    have h := runRules_all_fail (fun t _ => (true, t)) [] flatRules hall
    unfold cpTried
    rw [if_neg hne, show stripL (lowerL "   ".data) = [] from by decide, h.2]
    decide

/-- C8 amended: only the genuinely empty input `""` yields the
no-command outcome with no pattern evaluated; an input that is
whitespace-only (nonempty but empty after lowercasing and trimming) is
run against the full pattern table — every pattern is evaluated and
fails — and yields the didn't-understand failure instead. -/
theorem empty_input_amended (exec : String → List Char → Bool × String)
    (cmd : String) :
    (cpProcessCommand exec "" = (false, noCommandMsg) ∧ cpTried "" = []) ∧
    (cmd ≠ "" → stripL (lowerL cmd.data) = [] →
      cpProcessCommand exec cmd = (false, didntUnderstandMsg) ∧
      cpTried cmd = flatRules.map Prod.snd) := by
  refine ⟨⟨rfl, rfl⟩, fun h1 h2 => ?_⟩
  have hall : ∀ g ∈ flatRules, reSearchL g.2 [] = false := by decide
  have h := runRules_all_fail exec [] flatRules hall
  unfold cpProcessCommand cpTried
  rw [if_neg h1, if_neg h1, h2]
  exact ⟨h.1, h.2⟩

/-- C8 amended witness: instantiated at the one-space input. -/
theorem empty_input_amended_witness :
    cpProcessCommand (fun t _ => (true, t)) "" = (false, noCommandMsg) ∧
    cpProcessCommand (fun t _ => (true, t)) " "
      = (false, didntUnderstandMsg) := by
  have h := empty_input_amended (fun t _ => (true, t)) " "
  exact ⟨h.1.1, (h.2 (by decide) (by decide)).1⟩

/-! ## Slot / parameter extraction (`src/main.py`)

`_search_youtube` (lines 486-496): for each phrase, plain
`search_term.replace(phrase, '').strip()` — removing **all**
occurrences — then `' '.join(search_term.split())`.

`_open_file_enhanced` (lines 886-900): per phrase, three `elif`
branches — `startswith(phrase + ' ')` / `' ' + phrase in filename` /
`endswith(' ' + phrase)` — then a final `.strip()`.

`_navigate_to_folder` (lines 661-665): plain
`replace(phrase, '').strip()` per phrase, no final collapse. -/

/-- `remove_phrases` of `_search_youtube`, in source order. -/
def ytPhrases : List String :=
  ["search youtube", "search for", "youtube search", "find on youtube",
   "youtube find", "play on youtube", "play", "find", "show me",
   "look for", "youtube", "search"]

/-- `remove_phrases` of `_open_file_enhanced`, in source order. -/
def filePhrases : List String :=
  ["open file", "open document", "show file", "launch file",
   "open the file", "open", "file", "document"]

/-- Filler phrases stripped by `_navigate_to_folder`, in source order. -/
def navPhrases : List String :=
  ["go to", "navigate to", "take me to", "open", "show me", "switch to"]

/-- The shared replace-then-strip fold:
`acc = acc.replace(phrase, '').strip()` over the phrase list. -/
def stripFold (phrases : List (List Char)) (s : List Char) : List Char :=
  phrases.foldl (fun a p => stripL (replaceAllL p [] a)) s

/-- `_search_youtube` residual on already-lowercased text: the
replace/strip fold followed by `' '.join(split())`. -/
def ytStripL (s : List Char) : List Char :=
  collapseL (stripFold (ytPhrases.map String.data) s)

/-- The residual `_search_youtube` extracts from a raw command
(the handler lowercases first: `search_term = command.lower()`). -/
def ytResidual (cmd : String) : String :=
  String.mk (ytStripL (lowerL cmd.data))

/-- One phrase step of `_open_file_enhanced`: prefix-anchored first
occurrence, elif embedded all occurrences, elif suffix-anchored
(`rsplit(' ' + phrase, 1)[0]`), each followed by `.strip()`. -/
def fileStep (a p : List Char) : List Char :=
  if leadsWith (p ++ [' ']) a then stripL (replaceFirstL (p ++ [' ']) [] a)
  else if subOcc ([' '] ++ p) a then stripL (replaceAllL ([' '] ++ p) [] a)
  else if trailsWith ([' '] ++ p) a then
    stripL (List.take (a.length - (p.length + 1)) a)
  else a

/-- `_open_file_enhanced` residual on already-lowercased text. -/
def fileResidualL (s : List Char) : List Char :=
  stripL ((filePhrases.map String.data).foldl fileStep s)

/-- The residual `_open_file_enhanced` extracts from a raw command
(`filename = command.lower()` first). -/
def fileResidual (cmd : String) : String :=
  String.mk (fileResidualL (lowerL cmd.data))

/-- `_navigate_to_folder` residual (`folder_name`): replace/strip fold,
no whitespace collapse. -/
def navResidual (cmd : String) : String :=
  String.mk (stripFold (navPhrases.map String.data) (lowerL cmd.data))

/-- Modelled from the spec: the extraction C5 describes — for each
filler phrase in list order, remove the FIRST occurrence of the phrase,
attempting prefix-anchored, then embedded, then suffix-anchored removal
in that order, then collapse internal whitespace.  Used only to compare
the spec's wording against the code's extractors. -/
def claimStep (a p : List Char) : List Char :=
  if leadsWith (p ++ [' ']) a then List.drop (p.length + 1) a
  else if subOcc ([' '] ++ p) a then replaceFirstL ([' '] ++ p) [] a
  else if trailsWith ([' '] ++ p) a then List.take (a.length - (p.length + 1)) a
  else a

/-- Modelled from the spec: C5's extraction over a phrase list. -/
def claimExtractL (phrases : List (List Char)) (s : List Char) : List Char :=
  collapseL (phrases.foldl claimStep s)

/-! ## Handler embeddings with clarification instrumentation

Each handler is a pure function of the command plus the collaborator
responses it consumes: `followUp` is the result of the single
`self.listen(timeout=10)` call inside the clarification branch
(`none` = timeout / unrecognized audio), `findFile` abstracts the
filesystem search. The outcome records how many clarification prompts
were spoken, how many follow-up listens happened, and the parameter
value the handler's action was dispatched with (`none` = no dispatch). -/

structure HandlerOutcome where
  residual : String
  prompts : Nat
  listens : Nat
  query : Option String
  result : Bool
  deriving Repr, DecidableEq

/-- `_search_youtube`: residual below 2 characters triggers the single
clarification prompt and one listen; the follow-up (if any) becomes the
query unchecked; otherwise the residual itself is dispatched. -/
def searchYoutubeRun (cmd : String) (followUp : Option String) :
    HandlerOutcome :=
  if ytResidual cmd = "" || (ytResidual cmd).length < 2 then
    match followUp with
    | some q => ⟨ytResidual cmd, 1, 1, some q, true⟩
    | none => ⟨ytResidual cmd, 1, 1, none, false⟩
  else ⟨ytResidual cmd, 0, 0, some (ytResidual cmd), true⟩

/-- `_open_file_enhanced`: same clarification protocol; the follow-up is
lowercased; the (possibly recovered) file name drives the filesystem
search `findFile`, whose failure yields the not-found failure. -/
def openFileEnhancedRun (findFile : String → Option String) (cmd : String)
    (followUp : Option String) : HandlerOutcome :=
  if fileResidual cmd = "" || (fileResidual cmd).length < 2 then
    match followUp with
    | some q =>
      ⟨fileResidual cmd, 1, 1, some (lowerStr q), (findFile (lowerStr q)).isSome⟩
    | none => ⟨fileResidual cmd, 1, 1, none, false⟩
  else
    ⟨fileResidual cmd, 0, 0, some (fileResidual cmd),
      (findFile (fileResidual cmd)).isSome⟩

/-- `_open_website`: `site_name = command.replace('open website',
'').strip()`; only emptiness triggers the missing-slot response (no
length-2 check, and no listen); otherwise the site — prefixed with
`https://` and suffixed `.com` unless already a URL — is dispatched. -/
def openWebsiteRun (cmd : String) : HandlerOutcome :=
  let site := stripS (replaceS cmd "open website" "")
  if site = "" then ⟨site, 1, 0, none, false⟩
  else
    let url := if leadsWith "http://".data site.data
        || leadsWith "https://".data site.data
      then site else "https://" ++ site ++ ".com"
    ⟨site, 0, 0, some url, true⟩

/-- `_search_google`: `search_term = command.replace('search google',
'').strip()`; only emptiness triggers the missing-slot response. -/
def searchGoogleRun (cmd : String) : HandlerOutcome :=
  let q := stripS (replaceS cmd "search google" "")
  if q = "" then ⟨q, 1, 0, none, false⟩
  else
    let url := "https://www.google.com/search?q="
      ++ String.mk (replaceAllL [' '] ['+'] q.data)
    ⟨q, 0, 0, some url, true⟩

/-- `_navigate_to_folder` front end: only an empty residual triggers the
missing-slot response; otherwise the residual is the folder slot handed
to the mapping lookup / folder search. -/
def navigateToFolderRun (cmd : String) : HandlerOutcome :=
  let f := navResidual cmd
  if f = "" then ⟨f, 1, 0, none, false⟩
  else ⟨f, 0, 0, some f, true⟩

/-- The YouTube results URL built by `_search_youtube`'s web fallback. -/
def ytSearchUrl (q : String) : String :=
  "https://www.youtube.com/results?search_query="
    ++ String.mk (replaceAllL [' '] ['+'] q.data)

/-! ## Lemmas about the string utilities -/

theorem leadsWith_ex : ∀ x y : List Char, leadsWith x y = true →
    ∃ r, y = x ++ r := by
  intro x
  induction x with
  | nil => intro y _; exact ⟨y, rfl⟩
  | cons c p ih =>
    intro y h
    cases y with
    | nil => simp [leadsWith] at h
    | cons d s =>
      simp only [leadsWith, Bool.and_eq_true, beq_iff_eq] at h
      obtain ⟨rfl, h2⟩ := h
      obtain ⟨r, rfl⟩ := ih s h2
      exact ⟨r, rfl⟩

theorem leadsWith_self : ∀ l : List Char, leadsWith l l = true := by
  intro l
  induction l with
  | nil => rfl
  | cons c t ih => simp [leadsWith, ih]

theorem subOcc_cons_of_tail (p : List Char) (c : Char) (t : List Char)
    (h : subOcc p t = true) : subOcc p (c :: t) = true := by
  simp [subOcc, h]

theorem subOcc_append_self (q : List Char) :
    ∀ pre, subOcc q (pre ++ q) = true := by
  intro pre
  induction pre with
  | nil =>
    simp only [List.nil_append]
    cases q with
    | nil => rfl
    | cons c t => simp [subOcc, leadsWith_self]
  | cons c pt ih => exact subOcc_cons_of_tail _ _ _ ih

/-- A suffix occurrence is in particular a substring occurrence:
`s.endswith(p)` implies `p in s`. -/
theorem trailsWith_subOcc (q a : List Char) (h : trailsWith q a = true) :
    subOcc q a = true := by
  unfold trailsWith at h
  obtain ⟨r, hr⟩ := leadsWith_ex _ _ h
  have ha : a = r.reverse ++ q := by
    have := congrArg List.reverse hr
    simpa using this
  rw [ha]
  exact subOcc_append_self q r.reverse

/-- If the pattern does not occur in the text, replacement leaves the
text unchanged. -/
theorem replaceGo_not_occ (p r : List Char) :
    ∀ n s, s.length ≤ n → subOcc p s = false → replaceGo p r n s = s := by
  intro n
  induction n with
  | zero =>
    intro s hlen _
    cases s with
    | nil => rfl
    | cons c t => simp at hlen
  | succ n ih =>
    intro s hlen hocc
    cases s with
    | nil => rfl
    | cons c t =>
      have hocc' : leadsWith p (c :: t) = false ∧ subOcc p t = false := by
        simpa [subOcc, Bool.or_eq_false_iff] using hocc
      have hcond : (!p.isEmpty && leadsWith p (c :: t)) = false := by
        rw [hocc'.1]; simp
      have hlen' : t.length ≤ n := by
        simp only [List.length_cons] at hlen; omega
      simp [replaceGo, hcond, ih t hlen' hocc'.2]

theorem replaceAll_not_occ (p r s : List Char) (h : subOcc p s = false) :
    replaceAllL p r s = s :=
  replaceGo_not_occ p r s.length s (Nat.le_refl _) h

/-- A word is nonempty and whitespace-free. -/
def wordOK (w : List Char) : Prop :=
  w ≠ [] ∧ ∀ c ∈ w, isSpaceB c = false

/-- Every word produced by Python's `split()` is nonempty and
whitespace-free. -/
theorem splitWsGo_words_ok :
    ∀ (s acc : List Char), (∀ c ∈ acc, isSpaceB c = false) →
      ∀ w ∈ splitWsGo acc s, wordOK w := by
  intro s
  induction s with
  | nil =>
    intro acc hacc w hw
    by_cases h : acc.isEmpty
    · simp [splitWsGo, h] at hw
    · simp only [splitWsGo, h, if_false, Bool.false_eq_true] at hw
      simp only [List.mem_singleton] at hw
      subst hw
      refine ⟨?_, ?_⟩
      · intro hrev
        exact h (by simpa [List.isEmpty_iff] using List.reverse_eq_nil_iff.mp hrev)
      · intro c hc
        exact hacc c (List.mem_reverse.mp hc)
  | cons c t ih =>
    intro acc hacc w hw
    by_cases hsp : isSpaceB c
    · by_cases hemp : acc.isEmpty
      · simp only [splitWsGo, hsp, hemp, if_true] at hw
        exact ih [] (by simp) w hw
      · simp only [splitWsGo, hsp, hemp, if_true, if_false, Bool.false_eq_true,
          List.mem_cons] at hw
        rcases hw with hw | hw
        · subst hw
          refine ⟨?_, ?_⟩
          · intro hrev
            exact hemp (by simpa [List.isEmpty_iff] using List.reverse_eq_nil_iff.mp hrev)
          · intro d hd
            exact hacc d (List.mem_reverse.mp hd)
        · exact ih [] (by simp) w hw
    · simp only [splitWsGo, hsp, if_false, Bool.false_eq_true] at hw
      refine ih (c :: acc) ?_ w hw
      intro d hd
      rcases List.mem_cons.mp hd with rfl | hd
      · simpa using hsp
      · exact hacc d hd

theorem joinWords_ne_nil :
    ∀ (w : List Char) (ws : List (List Char)), w ≠ [] →
      joinWords (w :: ws) ≠ [] := by
  intro w ws hw
  cases ws with
  | nil => simpa [joinWords] using hw
  | cons w' ws' =>
    simp only [joinWords]
    intro h
    exact hw (List.append_eq_nil.mp h).1

/-- The joined word list starts with a non-space character (or is
empty): leading `dropWhile` is the identity. -/
theorem joinWords_nodrop :
    ∀ ws : List (List Char), (∀ w ∈ ws, wordOK w) →
      List.dropWhile isSpaceB (joinWords ws) = joinWords ws := by
  intro ws h
  cases ws with
  | nil => rfl
  | cons w ws' =>
    have hw := h w (List.mem_cons_self _ _)
    obtain ⟨c, t, rfl⟩ : ∃ c t, w = c :: t := by
      cases w with
      | nil => exact absurd rfl hw.1
      | cons c t => exact ⟨c, t, rfl⟩
    have hc : isSpaceB c = false := hw.2 c (List.mem_cons_self _ _)
    cases ws' with
    | nil => simp [joinWords, List.dropWhile_cons, hc]
    | cons w' ws'' => simp [joinWords, List.dropWhile_cons, hc]

/-- The joined word list ends with a non-space character (or is empty). -/
theorem joinWords_rev_head :
    ∀ ws : List (List Char), (∀ w ∈ ws, wordOK w) →
      joinWords ws = [] ∨
      ∃ d r, (joinWords ws).reverse = d :: r ∧ isSpaceB d = false := by
  intro ws
  induction ws with
  | nil => intro _; exact Or.inl rfl
  | cons w ws' ih =>
    intro h
    have hw := h w (List.mem_cons_self _ _)
    right
    cases ws' with
    | nil =>
      simp only [joinWords]
      cases hrev : w.reverse with
      | nil => exact absurd (List.reverse_eq_nil_iff.mp hrev) hw.1
      | cons d r =>
        refine ⟨d, r, rfl, ?_⟩
        have : d ∈ w := by
          rw [← List.mem_reverse, hrev]; exact List.mem_cons_self _ _
        exact hw.2 d this
    | cons w' ws'' =>
      have hne : joinWords (w' :: ws'') ≠ [] :=
        joinWords_ne_nil w' ws'' (h w' (by simp)).1
      rcases ih (fun v hv => h v (List.mem_cons_of_mem _ hv)) with hnil | ⟨d, r, hdr, hd⟩
      · exact absurd hnil hne
      · refine ⟨d, r ++ ' ' :: w.reverse, ?_, hd⟩
        simp only [joinWords, List.reverse_append, List.reverse_cons, hdr]
        simp

/-- Stripping the output of `' '.join(split())` changes nothing. -/
theorem strip_collapse (s : List Char) : stripL (collapseL s) = collapseL s := by
  have hok : ∀ w ∈ splitWsL s, wordOK w :=
    splitWsGo_words_ok s [] (by simp)
  unfold stripL collapseL
  rw [joinWords_nodrop _ hok]
  rcases joinWords_rev_head _ hok with hnil | ⟨d, r, hdr, hd⟩
  · rw [hnil]; rfl
  · rw [hdr, List.dropWhile_cons, hd]
    simp [← hdr]

/-- A text unchanged by whitespace collapsing is unchanged by `strip`. -/
theorem strip_of_collapse_fixed {s : List Char} (h : collapseL s = s) :
    stripL s = s := by
  conv_lhs => rw [← h]
  rw [strip_collapse, h]

/-- Pointwise-equal step functions fold identically. -/
theorem foldl_congr_fn {α β : Type} (f g : α → β → α)
    (h : ∀ a b, f a b = g a b) :
    ∀ (l : List β) (a : α), List.foldl f a l = List.foldl g a l := by
  intro l
  induction l with
  | nil => intro a; rfl
  | cons b t ih =>
    intro a
    simp only [List.foldl_cons, h a b]
    exact ih _

/-- The replace/strip fold is the identity on a text containing no
phrase and unchanged by whitespace collapsing. -/
theorem stripFold_id :
    ∀ (phrases : List (List Char)) (s : List Char),
      (∀ p ∈ phrases, subOcc p s = false) → collapseL s = s →
      stripFold phrases s = s := by
  intro phrases
  induction phrases with
  | nil => intro s _ _; rfl
  | cons p ps ih =>
    intro s hocc hcol
    unfold stripFold
    simp only [List.foldl_cons]
    rw [replaceAll_not_occ p [] s (hocc p (List.mem_cons_self _ _)),
      strip_of_collapse_fixed hcol]
    exact ih s (fun q hq => hocc q (List.mem_cons_of_mem _ hq)) hcol

/-! ## C5: the extraction algorithm vs the spec's description -/

/-- C5 counterexample: on "play play despacito" the YouTube extractor
(code) removes BOTH occurrences of the filler phrase "play" —
`str.replace` removes every occurrence — producing "despacito", while
the spec's first-occurrence prefix/embedded/suffix removal would leave
"play despacito"; the two extractions differ. -/
theorem extraction_spec_counterexample :
    String.mk (ytStripL "play play despacito".data) = "despacito" ∧
    String.mk (claimExtractL (ytPhrases.map String.data)
      "play play despacito".data) = "play despacito" ∧
    ytStripL "play play despacito".data
      ≠ claimExtractL (ytPhrases.map String.data) "play play despacito".data := by
  decide

/-- Modelled from the spec (amended wording): the file-open extractor,
per phrase, removes the leading occurrence of phrase-plus-space if the
text starts with it, otherwise removes every embedded occurrence of
space-plus-phrase, trimming after each phrase; the suffix-anchored
branch of the source never fires because an ending occurrence is also
an embedded occurrence. -/
def fileStepAmended (a p : List Char) : List Char :=
  if leadsWith (p ++ [' ']) a then stripL (replaceFirstL (p ++ [' ']) [] a)
  else if subOcc ([' '] ++ p) a then stripL (replaceAllL ([' '] ++ p) [] a)
  else a

/-- Modelled from the spec (amended wording): file-open residual. -/
def fileResidualAmendedL (s : List Char) : List Char :=
  stripL ((filePhrases.map String.data).foldl fileStepAmended s)

/-- Modelled from the spec (amended wording): the YouTube extractor
removes, for each phrase in list order, EVERY occurrence of the phrase
by plain substring replacement, trims after each phrase, and finally
collapses internal whitespace runs to single spaces. -/
def ytStripAmendedL (s : List Char) : List Char :=
  collapseL ((ytPhrases.map String.data).foldl
    (fun a p => stripL (replaceAllL p [] a)) s)

theorem fileStep_eq_amended (a p : List Char) :
    fileStep a p = fileStepAmended a p := by
  unfold fileStep fileStepAmended
  by_cases h1 : leadsWith (p ++ [' ']) a = true
  · simp [h1]
  · by_cases h2 : subOcc (' ' :: p) a = true
    · simp [h1, h2]
    · have h3 : trailsWith (' ' :: p) a = false := by
        cases htr : trailsWith (' ' :: p) a with
        | false => rfl
        | true => exact absurd (trailsWith_subOcc _ _ htr) h2
      simp [h1, h2, h3]

/-- C5 amended: the extractors behave as the amended wording says —
the file-open residual equals the prefix-else-embedded removal fold
(the suffix branch is dead code), and the YouTube residual equals the
remove-all-occurrences fold followed by whitespace collapsing. -/
theorem extraction_amended :
    (∀ s : List Char, fileResidualL s = fileResidualAmendedL s) ∧
    (∀ s : List Char, ytStripL s = ytStripAmendedL s) := by
  constructor
  · intro s
    unfold fileResidualL fileResidualAmendedL
    rw [foldl_congr_fn fileStep fileStepAmended fileStep_eq_amended]
  · intro s
    rfl

/-! ## C6: the "search youtube for lofi beats" scenario -/

/-- C6 counterexample: the residual is "for lofi beats", not
"lofi beats" — the standalone word "for" is not in `remove_phrases`
(only "search for" / "look for" are, and neither occurs once
"search youtube" has been removed), so it survives; the handler's query
is that three-word string. -/
theorem lofi_beats_counterexample :
    ytResidual "search youtube for lofi beats" = "for lofi beats" ∧
    (searchYoutubeRun "search youtube for lofi beats" none).query
      = some "for lofi beats" ∧
    ("for lofi beats" : String) ≠ "lofi beats" := by
  decide

/-- C6 amended: on "search youtube for lofi beats" the extraction
yields "for lofi beats"; exactly that string is the query dispatched by
the handler, and its space-to-plus encoding appears in the results URL. -/
theorem lofi_beats_amended :
    ytResidual "search youtube for lofi beats" = "for lofi beats" ∧
    (searchYoutubeRun "search youtube for lofi beats" none).query
      = some "for lofi beats" ∧
    ytSearchUrl "for lofi beats"
      = "https://www.youtube.com/results?search_query=for+lofi+beats" := by
  decide

/-! ## C9: idempotence of filler stripping -/

/-- C9 counterexample: "lofi  beats" (double internal space) contains
no filler phrase of the YouTube list, yet extraction changes it — the
final whitespace collapse rewrites it to "lofi beats" — so extraction
is not the identity on every filler-free text. -/
theorem strip_idempotent_counterexample :
    (∀ p ∈ ytPhrases, subOcc p.data "lofi  beats".data = false) ∧
    String.mk (ytStripL "lofi  beats".data) = "lofi beats" ∧
    ytStripL "lofi  beats".data ≠ "lofi  beats".data := by
  decide

/-- C9 amended: on a text that contains no occurrence of any filler
phrase of the active list AND is unchanged by whitespace collapsing
(in particular any residual already produced by the extractor),
re-running the extraction changes nothing. -/
theorem strip_idempotent_amended (s : List Char)
    (hocc : ∀ p ∈ ytPhrases, subOcc p.data s = false)
    (hnorm : collapseL s = s) :
    ytStripL s = s := by
  unfold ytStripL
  rw [stripFold_id _ s ?_ hnorm, hnorm]
  intro p hp
  simp only [List.mem_map] at hp
  obtain ⟨q, hq, rfl⟩ := hp
  exact hocc q hq

/-- C9 amended witness: "despacito" is filler-free and collapsed, and
extraction leaves it unchanged. -/
theorem strip_idempotent_amended_witness :
    ytStripL "despacito".data = "despacito".data :=
  strip_idempotent_amended "despacito".data (by decide) (by decide)

/-! ## C3: short residuals and slot-missing handling -/

/-- C3 counterexample: "open website a" leaves the one-character
residual "a" — shorter than 2 characters — yet `_open_website` checks
only for emptiness and dispatches the browser open with
"https://a.com", returning success. -/
theorem slot_missing_counterexample :
    stripS (replaceS "open website a" "open website" "") = "a" ∧
    ("a" : String).length < 2 ∧
    (openWebsiteRun "open website a").query = some "https://a.com" ∧
    (openWebsiteRun "open website a").result = true := by
  decide

/-- C3 amended: the YouTube-search and file-open handlers treat a
residual shorter than 2 characters as slot-missing — one clarification
prompt, and the dispatched parameter is exactly the follow-up utterance
(never the short residual); the website-open, Google-search and
folder-navigation handlers treat only an EMPTY residual as missing, and
dispatch any nonempty residual, one-character residuals included. -/
theorem slot_missing_amended (cmd : String) (fu : Option String)
    (findFile : String → Option String) :
    ((ytResidual cmd).length < 2 →
      (searchYoutubeRun cmd fu).query = fu ∧
      (searchYoutubeRun cmd fu).prompts = 1) ∧
    ((fileResidual cmd).length < 2 →
      (openFileEnhancedRun findFile cmd fu).query = fu.map lowerStr ∧
      (openFileEnhancedRun findFile cmd fu).prompts = 1) ∧
    (stripS (replaceS cmd "open website" "") = "" →
      (openWebsiteRun cmd).query = none ∧ (openWebsiteRun cmd).result = false) ∧
    (stripS (replaceS cmd "open website" "") ≠ "" →
      (openWebsiteRun cmd).query.isSome = true) ∧
    (stripS (replaceS cmd "search google" "") = "" →
      (searchGoogleRun cmd).query = none ∧
      (searchGoogleRun cmd).result = false) ∧
    (stripS (replaceS cmd "search google" "") ≠ "" →
      (searchGoogleRun cmd).query.isSome = true) ∧
    (navResidual cmd = "" →
      (navigateToFolderRun cmd).query = none ∧
      (navigateToFolderRun cmd).result = false) ∧
    (navResidual cmd ≠ "" →
      (navigateToFolderRun cmd).query = some (navResidual cmd)) := by
  refine ⟨?_, ?_, ?_, ?_, ?_, ?_, ?_, ?_⟩
  · intro h
    cases fu <;> simp [searchYoutubeRun, h]
  · intro h
    cases fu <;> simp [openFileEnhancedRun, h]
  · intro h
    simp [openWebsiteRun, h]
  · intro h
    simp [openWebsiteRun, h]
  · intro h
    simp [searchGoogleRun, h]
  · intro h
    simp [searchGoogleRun, h]
  · intro h
    simp [navigateToFolderRun, h]
  · intro h
    simp [navigateToFolderRun, h]

/-- C3 amended witness. -/
theorem slot_missing_amended_witness :
    (searchYoutubeRun "search youtube" (some "cats")).query = some "cats" ∧
    (openWebsiteRun "open website").query = none ∧
    (openWebsiteRun "open website a").query.isSome = true := by
  refine ⟨?_, ?_, ?_⟩
  · exact ((slot_missing_amended "search youtube" (some "cats")
      (fun _ => none)).1 (by decide)).1
  · exact (((slot_missing_amended "open website" none
      (fun _ => none)).2.2.1) (by decide)).1
  · exact ((slot_missing_amended "open website a" none
      (fun _ => none)).2.2.2.1) (by decide)

/-! ## C4: at most one clarification round-trip per command cycle -/

/-- C4: in a single command cycle of the YouTube-search or file-open
handler, at most one clarification prompt is spoken and at most one
follow-up utterance is captured, whatever the command and whatever the
follow-up contains; and when the clarification prompt was emitted and
the follow-up times out (`none`), the cycle ends as a failure. -/
theorem clarification_single_round (cmd : String) (fu : Option String)
    (findFile : String → Option String) :
    (searchYoutubeRun cmd fu).prompts ≤ 1 ∧
    (searchYoutubeRun cmd fu).listens ≤ 1 ∧
    (openFileEnhancedRun findFile cmd fu).prompts ≤ 1 ∧
    (openFileEnhancedRun findFile cmd fu).listens ≤ 1 ∧
    (fu = none → (searchYoutubeRun cmd fu).prompts = 1 →
      (searchYoutubeRun cmd fu).result = false) ∧
    (fu = none → (openFileEnhancedRun findFile cmd fu).prompts = 1 →
      (openFileEnhancedRun findFile cmd fu).result = false) := by
  refine ⟨?_, ?_, ?_, ?_, ?_, ?_⟩
  · cases fu <;> (unfold searchYoutubeRun; split_ifs <;> simp)
  · cases fu <;> (unfold searchYoutubeRun; split_ifs <;> simp)
  · cases fu <;> (unfold openFileEnhancedRun; split_ifs <;> simp)
  · cases fu <;> (unfold openFileEnhancedRun; split_ifs <;> simp)
  · intro hfu; subst hfu; unfold searchYoutubeRun; split_ifs <;> simp
  · intro hfu; subst hfu; unfold openFileEnhancedRun; split_ifs <;> simp

/-- C4 witness: "search youtube" has an empty residual; with a timed-out
follow-up the cycle emits one prompt, one listen, and fails. -/
theorem clarification_single_round_witness :
    (searchYoutubeRun "search youtube" none).result = false ∧
    (searchYoutubeRun "search youtube" none).prompts ≤ 1 := by
  have h := clarification_single_round "search youtube" none (fun _ => none)
  exact ⟨h.2.2.2.2.1 rfl (by decide), h.1⟩

/-! ## The hybrid dispatch engine of `BeyondTypingMVP` (`src/main.py`)

`process_command` (lines 131-160) tries the ML classifier first (when
available); `_route_by_intent` (lines 171-305) maps the predicted
intent, with secondary keyword checks on the lowercased original text,
to one concrete handler invocation; if routing returns `False`,
processing restarts through `_process_command_static` with the complete
original command.  Handler invocations are modelled as an inductive
`Call` (with the command argument where the source passes it); the
result of an invoked handler is the collaborator `env : Call → Bool`.
`routeCall` returns `none` exactly when `_route_by_intent` reaches a
`return False` without invoking any handler. -/

inductive Call where
  | openYoutube | openBrowser | openFileExplorerNavigate
  | navigateToFolder (cmd : String)
  | openFolder (cmd : String)
  | listFilesInFolder
  | openFileEnhanced (cmd : String)
  | openPicture (cmd : String)
  | goBackFolder | announceCurrentLocation | openEditor
  | createFile (cmd : String)
  | writeToFile (cmd : String)
  | deleteText (cmd : String)
  | deleteFile (cmd : String)
  | saveFileEnhanced (cmd : String)
  | saveFileToLocation (cmd : String)
  | closeFile
  | searchYoutube (cmd : String)
  | searchGoogle (cmd : String)
  | playVideo | pauseVideo | nextVideo | previousVideo
  | nextTab | previousTab | closeTab
  | openWebsite (cmd : String)
  | openWhatsapp | getTime | showHelp
  | readFileAloud (cmd : String)
  | openVscode (cmd : String)
  | openWord (cmd : String)
  | openPowerpoint (cmd : String)
  | openCamera
  | whatsappSend (cmd : String)
  | whatsappDownload
  | readClipboard | readSelectedText | readScreen
  | stopAssistant
  | handleChat (cmd : String)
  | takeScreenshot
  | minimizeWindow | maximizeWindow | scrollDown | scrollUp
  | lockSystem | unlockSystem
  deriving DecidableEq

/-- `_route_by_intent`: which handler (if any) the ML intent routes to.
`none` means the branch cascade fell through to its final
`return False` without invoking a handler. -/
def routeCall (intent cmd : String) : Option Call :=
  let cl := lowerStr cmd
  if intent = "youtube_open" then some .openYoutube
  else if intent = "youtube_control" then
    if containsS cl "play" then some .playVideo
    else if containsS cl "pause" then some .pauseVideo
    else if containsS cl "next" then some .nextVideo
    else if containsS cl "previous" then some .previousVideo
    else none
  else if intent = "youtube_search" then some (.searchYoutube cmd)
  else if intent = "browser_open" then
    if containsS cl "google" then some .openBrowser
    else if containsS cl "youtube" then some .openYoutube
    else if containsS cl "website" || containsS cl "open" then
      some (.openWebsite cmd)
    else some .openBrowser
  else if intent = "browser_search" then
    if containsS cl "google" then some (.searchGoogle cmd)
    else some (.searchGoogle cmd)
  else if intent = "tab_next" then some .nextTab
  else if intent = "tab_previous" then some .previousTab
  else if intent = "tab_close" then some .closeTab
  else if intent = "file_explorer" then
    if containsS cl "documents" then some (.navigateToFolder "go to documents")
    else if containsS cl "downloads" then some (.navigateToFolder "go to downloads")
    else if containsS cl "pictures" then some (.navigateToFolder "go to pictures")
    else some .openFileExplorerNavigate
  else if intent = "file_create" then some (.createFile cmd)
  else if intent = "file_write" then some (.writeToFile cmd)
  else if intent = "file_save" then some (.saveFileEnhanced cmd)
  else if intent = "file_close" then some .closeFile
  else if intent = "file_open" then
    if containsS cl "pdf" || containsS cl "document" then
      some (.openFileEnhanced cmd)
    else some (.openFileEnhanced cmd)
  else if intent = "file_read" then some (.readFileAloud cmd)
  else if intent = "app_open" then
    if containsS cl "youtube" || containsS cl "yt" then some .openYoutube
    else if containsS cl "whatsapp" then some .openWhatsapp
    else if containsS cl "chrome" || containsS cl "browser" then some .openBrowser
    else if containsS cl "vscode" || containsS cl "vs code" then
      some (.openVscode cmd)
    else if containsS cl "word" then some (.openWord cmd)
    else if containsS cl "powerpoint" then some (.openPowerpoint cmd)
    else if containsS cl "camera" then some .openCamera
    else some .openBrowser
  else if intent = "whatsapp_send" then some (.whatsappSend cmd)
  else if intent = "whatsapp_download" then some .whatsappDownload
  else if intent = "screen_reader" then
    if containsS cl "clipboard" then some .readClipboard
    else if containsS cl "selected" then some .readSelectedText
    else some .readScreen
  else if intent = "utility_time" then some .getTime
  else if intent = "utility_help" then some .showHelp
  else if intent = "utility_stop" then some .stopAssistant
  else if intent = "utility_chat" then some (.handleChat cmd)
  else if intent = "utility_screenshot" then some .takeScreenshot
  else if intent = "utility_window" then
    if containsS cl "minimize" then some .minimizeWindow
    else if containsS cl "maximize" then some .maximizeWindow
    else none
  else if intent = "utility_scroll" then
    if containsS cl "down" then some .scrollDown
    else if containsS cl "up" then some .scrollUp
    else none
  else if intent = "system_lock" then some .lockSystem
  else if intent = "system_unlock" then some .unlockSystem
  else none

/-- `has_any_keyword` of `_process_command_static`. -/
def kwAny (cl : String) (l : List String) : Bool :=
  l.any fun k => containsS cl k

/-- The keyword with an apostrophe in the time branch. -/
def whatsTheTime : String := "what" ++ apos ++ "s the time"

/-- `_process_command_static` (src/main.py lines 307-437): the ordered
if/elif keyword cascade over the lowercased command; each branch calls
its handler with the original command where the source does.  The stop
branch speaks goodbye, clears the running flag and returns True
directly, and the final else speaks the didn't-catch response and
returns False. -/
def staticProcess (env : Call → Bool) (cmd cl : String) : Bool :=
  if kwAny cl ["open youtube", "launch youtube", "start youtube", "youtube open",
      "play youtube", "go to youtube", "open yt"] then env .openYoutube
  else if kwAny cl ["open browser", "open edge", "launch browser", "start browser",
      "open web browser", "open chrome", "browser open"] then env .openBrowser
  else if kwAny cl ["open file explorer", "open explorer", "file explorer",
      "show file explorer", "launch file explorer", "open files"] then
    env .openFileExplorerNavigate
  else if kwAny cl ["go to", "navigate to", "take me to", "open", "show me",
      "switch to"] && (["downloads", "documents", "desktop", "pictures", "music",
      "videos"].any fun f => containsS cl f) then
    env (.navigateToFolder cmd)
  else if kwAny cl ["open folder", "show folder", "launch folder"] then
    env (.openFolder cmd)
  else if kwAny cl ["list files", "list folders", "show files", "show folders",
      "what files", "what folders", "files in", "folders in", "read files",
      "read folders"] then env .listFilesInFolder
  else if kwAny cl ["open file", "open document", "show file", "launch file",
      "open the file"] then env (.openFileEnhanced cmd)
  else if kwAny cl ["open picture", "open image", "open photo", "show picture",
      "show image", "show photo", "view picture", "view image"] then
    env (.openPicture cmd)
  else if kwAny cl ["go back", "go backwards", "back folder", "previous folder",
      "return", "go back to"] && containsS cl "folder" then env .goBackFolder
  else if kwAny cl ["where am i", "where am", "current location", "current folder",
      "my location", "what folder", "which folder"] then
    env .announceCurrentLocation
  else if kwAny cl ["open notepad", "open editor", "launch notepad", "start notepad",
      "open text editor", "notepad open", "editor open"] then env .openEditor
  else if kwAny cl ["create file", "create document", "new file", "make file",
      "new document", "make document", "create a file"] then env (.createFile cmd)
  else if (containsS cl "write" || containsS cl "type") && kwAny cl ["in file",
      "to file", "in document", "to document", "in the file"] then
    env (.writeToFile cmd)
  else if kwAny cl ["delete text", "remove text", "erase text", "clear text",
      "remove the text", "delete the text"] then env (.deleteText cmd)
  else if kwAny cl ["delete file", "remove file", "erase file", "delete the file",
      "remove the file"] then env (.deleteFile cmd)
  else if kwAny cl ["save file", "save document", "save the file", "save as"] then
    env (.saveFileEnhanced cmd)
  else if kwAny cl ["save to", "save in", "save at"] then
    env (.saveFileToLocation cmd)
  else if kwAny cl ["close file", "close document", "close the file", "exit file",
      "quit file"] then env .closeFile
  else if containsS cl "youtube" || containsS cl "yt" then
    if kwAny cl ["search", "find", "play", "look for"] || containsS cl "search" then
      env (.searchYoutube cmd)
    else env .openYoutube
  else if kwAny cl ["go to youtube", "open youtube", "launch youtube",
      "start youtube", "youtube open"] && !containsS cl "search" then
    env .openYoutube
  else if kwAny cl ["search google", "google search", "search on google",
      "google find", "find on google"] then env (.searchGoogle cmd)
  else if kwAny cl ["play video", "play the video", "start video", "resume video",
      "continue video"] then env .playVideo
  else if kwAny cl ["pause video", "pause the video", "stop video", "halt video"] then
    env .pauseVideo
  else if kwAny cl ["next video", "next", "skip video", "skip", "next track",
      "next song"] then env .nextVideo
  else if kwAny cl ["previous video", "previous", "last video", "go back video",
      "previous track", "previous song"] then env .previousVideo
  else if kwAny cl ["next tab", "switch tab", "next browser tab",
      "switch to next tab", "change tab"] then env .nextTab
  else if kwAny cl ["previous tab", "last tab", "previous browser tab",
      "go back tab", "back tab"] then env .previousTab
  else if kwAny cl ["open website", "open site", "go to website", "go to site",
      "visit website", "visit site", "open the website"] then
    env (.openWebsite cmd)
  else if kwAny cl ["open whatsapp", "whatsapp", "whatsapp web",
      "open whatsapp web"] then env .openWhatsapp
  else if kwAny cl ["what time is it", "what time", "tell me the time",
      "current time", "time please", whatsTheTime] then env .getTime
  else if kwAny cl ["help", "what can you do", "show help", "list commands",
      "available commands", "commands", "capabilities"] then env .showHelp
  else if kwAny cl ["stop", "shutdown", "exit", "quit", "close", "end",
      "terminate"] then true
  else false

/-- `BeyondTypingMVP.process_command`: lowercase, try the ML path when
the model is available (`predict` returns `none` on a prediction
exception), route by intent; a `True` from routing is returned, any
failure falls back to the full static cascade on the complete original
command. -/
def mainProcess (ml : Bool) (predict : String → Option String)
    (env : Call → Bool) (cmd : String) : Bool :=
  if ml then
    match predict (lowerStr cmd) with
    | some intent =>
      match routeCall intent cmd with
      | some call =>
        if env call then true else staticProcess env cmd (lowerStr cmd)
      | none => staticProcess env cmd (lowerStr cmd)
    | none => staticProcess env cmd (lowerStr cmd)
  else staticProcess env cmd (lowerStr cmd)

/-- C2: whenever the predicted intent routes to no handler
(`_route_by_intent` reaches its fall-through `return False` without a
dispatch), the engine restarts through the static keyword matcher on
the complete original utterance and produces exactly the outcome it
would produce with the classifier absent; no `DispatchResult` comes
from the unrouted prediction itself. -/
theorem unrouted_intent_falls_through (env : Call → Bool)
    (predict : String → Option String) (cmd intent : String)
    (hpred : predict (lowerStr cmd) = some intent)
    (hroute : routeCall intent cmd = none) :
    mainProcess true predict env cmd = staticProcess env cmd (lowerStr cmd) ∧
    mainProcess true predict env cmd = mainProcess false predict env cmd := by
  simp [mainProcess, hpred, hroute]

/-- C2 witness: a prediction of an intent unknown to the router falls
back to the static cascade on the original command. -/
theorem unrouted_intent_falls_through_witness :
    routeCall "mystery_intent" "zzz" = none ∧
    mainProcess true (fun _ => some "mystery_intent") (fun _ => false) "zzz"
      = staticProcess (fun _ => false) "zzz" (lowerStr "zzz") := by
  refine ⟨by decide, ?_⟩
  exact (unrouted_intent_falls_through (fun _ => false)
    (fun _ => some "mystery_intent") "zzz" "mystery_intent" rfl (by decide)).1

/-! ## C7: the folder-listing classification (`_list_files_in_folder`)

In the source (src/main.py lines 825-833) the `else:` is aligned with
the `for`, not the `if`: it is a Python `for ... else` clause, whose
body runs exactly once after the loop completes (the loop has no
`break`) with `item` still bound to the LAST listed entry.  So every
directory is appended to `folders`, but `files` (and `pictures`)
receive only the final entry of the listing, whatever it is.  The
guard `if not items` before the loop means the listing is nonempty
when the loop runs. -/

/-- The `folders` / `files` / `pictures` buckets built by
`_list_files_in_folder` over a directory listing: the filesystem is
the collaborator pair `isDir` / `isPic`. -/
def listFilesBuckets (isDir isPic : String → Bool) (items : List String) :
    List String × List String × List String :=
  match items.getLast? with
  | none => ([], [], [])
  | some last =>
    (items.filter (fun i => isDir i), [last],
      if isPic last then [last] else [])

/-- C7 evaluation at the failing input: listing
`[docs, a.txt, b.txt]` where only `docs` is a directory.  The
announced file count is 1 — only the last entry `b.txt` ever reaches
`files` — while the listing truly contains 2 non-directories, so the
intended contract (count every non-directory as a file) is violated. -/
theorem folder_listing_defect_eval :
    (listFilesBuckets (fun s => s == "docs") (fun _ => false)
      ["docs", "a.txt", "b.txt"]).1 = ["docs"] ∧
    (listFilesBuckets (fun s => s == "docs") (fun _ => false)
      ["docs", "a.txt", "b.txt"]).2.1 = ["b.txt"] ∧
    (["docs", "a.txt", "b.txt"].filter
      (fun s => !(s == "docs"))).length = 2 ∧
    (listFilesBuckets (fun s => s == "docs") (fun _ => false)
      ["docs", "a.txt", "b.txt"]).2.1.length ≠ 2 := by
  decide

/-! ## C10: `FileOperations.navigate_to`

The `os.path` functions and the filesystem are collaborators, modelled
as the `OsModel` record; `navigate_to` resolves a relative path against
the current path, normalizes it, and commits the new current path only
when the target exists and is a directory.  Any exception inside the
`try` occurs before the assignment to `current_path` (only the resolver
and the two probes can raise), so the `except` branch also leaves the
state unchanged and returns False — exactly the else branch here. -/

structure OsModel where
  isAbs : String → Bool
  joinPath : String → String → String
  normPath : String → String
  pathExists : String → Bool
  pathIsDir : String → Bool

structure FileOpsState where
  currentPath : String
  deriving DecidableEq, Repr

/-- The path `navigate_to` resolves: absolute paths kept, relative ones
joined onto `current_path`, then normalized. -/
def resolvePath (os : OsModel) (st : FileOpsState) (path : String) : String :=
  os.normPath (if os.isAbs path then path else os.joinPath st.currentPath path)

/-- `FileOperations.navigate_to`: returns the success flag and the
post-state. -/
def navigateTo (os : OsModel) (st : FileOpsState) (path : String) :
    Bool × FileOpsState :=
  if os.pathExists (resolvePath os st path)
      && os.pathIsDir (resolvePath os st path) then
    (true, ⟨resolvePath os st path⟩)
  else
    (false, st)

/-- C10: `navigate_to` returns True with `current_path` set to the
normalized resolved path exactly when that path exists and is a
directory; whenever it returns False the state is unchanged. -/
theorem navigateTo_correct (os : OsModel) (st : FileOpsState) (path : String) :
    ((navigateTo os st path).1 = true ∧
      (navigateTo os st path).2.currentPath = resolvePath os st path
      ↔ os.pathExists (resolvePath os st path) = true ∧
        os.pathIsDir (resolvePath os st path) = true) ∧
    ((navigateTo os st path).1 = false → (navigateTo os st path).2 = st) := by
  unfold navigateTo
  by_cases h : (os.pathExists (resolvePath os st path)
      && os.pathIsDir (resolvePath os st path)) = true
  · rcases Bool.and_eq_true_iff.mp h with ⟨h1, h2⟩
    simp [h, h1, h2]
  · have h' := Bool.and_eq_true_iff.not.mp h
    constructor
    · simp only [if_neg h]
      constructor
      · rintro ⟨hfalse, _⟩
        cases hfalse
      · intro hex
        exact absurd hex h'
    · intro _
      rw [if_neg h]

/-- C10 witness: a concrete filesystem model — navigating into an
existing directory succeeds and updates the state; navigating to a
missing path fails and preserves it. -/
theorem navigateTo_correct_witness :
    (navigateTo
      ⟨fun p => leadsWith ['/'] p.data, fun a b => a ++ "/" ++ b, id,
        fun p => p == "/home/user/docs", fun p => p == "/home/user/docs"⟩
      ⟨"/home/user"⟩ "docs").1 = true ∧
    (navigateTo
      ⟨fun p => leadsWith ['/'] p.data, fun a b => a ++ "/" ++ b, id,
        fun p => p == "/home/user/docs", fun p => p == "/home/user/docs"⟩
      ⟨"/home/user"⟩ "nope").2 = (⟨"/home/user"⟩ : FileOpsState) := by
  constructor
  · exact ((navigateTo_correct
      ⟨fun p => leadsWith ['/'] p.data, fun a b => a ++ "/" ++ b, id,
        fun p => p == "/home/user/docs", fun p => p == "/home/user/docs"⟩
      ⟨"/home/user"⟩ "docs").1.mpr (by decide)).1
  · exact (navigateTo_correct
      ⟨fun p => leadsWith ['/'] p.data, fun a b => a ++ "/" ++ b, id,
        fun p => p == "/home/user/docs", fun p => p == "/home/user/docs"⟩
      ⟨"/home/user"⟩ "nope").2 (by decide)

end BeyondTyping
